import Mathlib

/-!
Verification of the DOCX-to-script conversion design for the renpy-editor
repository.

The repository source under review contains the CLI wrapper
`src/python/converter_cli.py`; its `main` is embedded below as `mainCLI`.
The conversion engine itself (the `renpy_doc_convert` package: style
classifier, formatting translator, block aggregator, reference resolver,
script emitter, diagnostics) is not part of the provided sources, so it is
modelled from the specification, stage by stage, and the stated testable
properties are proved against that model.
-/

namespace RenpyConvert

/-- Result of one simulated run of the command-line `main`: the messages it
printed, the process exit status, and the list of `convert(input, output)`
calls it performed, in order. Embedded from `src/python/converter_cli.py`. -/
structure CLIResult where
  printed : List String
  exitCode : Nat
  convertCalls : List (String × String)
deriving DecidableEq

/-- Usage line printed by the CLI when the argument count is wrong. -/
def usageMsg : String := "Usage: converter_cli.py <input.docx> <output.rpy>"

/-- Embedding of `main` from `src/python/converter_cli.py`.
`argv` is the full `sys.argv` (program name included), `isFile` models
`os.path.isfile`, and `cvt` models the imported `convert`, which either
returns normally or raises with a message (the `Except.error` case). -/
def mainCLI (argv : List String) (isFile : String → Bool)
    (cvt : String → String → Except String Unit) : CLIResult :=
  match argv with
  | [_, inputPath, outputPath] =>
    if isFile inputPath then
      match cvt inputPath outputPath with
      | Except.ok _ =>
        ⟨["Conversion successful: " ++ outputPath], 0, [(inputPath, outputPath)]⟩
      | Except.error e =>
        ⟨["Conversion failed: " ++ e], 1, [(inputPath, outputPath)]⟩
    else
      ⟨["Error: Input file " ++ inputPath ++ " does not exist."], 1, []⟩
  | _ => ⟨[usageMsg], 1, []⟩

/-- Modelled from the spec (§3): a Run is a contiguous span of text sharing
formatting; the engine sources holding this type are missing from src/. -/
structure Run where
  text : String
  bold : Bool := false
  italic : Bool := false
  underline : Bool := false
  strikethrough : Bool := false
deriving DecidableEq

/-- Modelled from the spec (§3): a Block is one paragraph-equivalent unit
with an author-assigned style name and its ordered Runs. -/
structure Block where
  styleName : String
  runs : List Run
deriving DecidableEq

/-- Modelled from the spec (§3): a Document is the ordered Block sequence. -/
abbrev Document := List Block

/-- Full text of a Block: the concatenation of its Runs (§3 invariant). -/
def blockText (b : Block) : String :=
  String.join (b.runs.map Run.text)

/-- Modelled from the spec (§3): the semantic kind the Style Classifier
assigns to a Block. -/
inductive BlockKind
  | heading
  | dialogue
  | narration
  | choice
  | stageDirection
  | unknown
deriving DecidableEq

/-- Diagnostic severity (§7 taxonomy). -/
inductive Severity
  | warning
  | error
deriving DecidableEq

/-- Modelled from the spec (§3): a non-fatal observation recorded during
conversion. The block-index field of §3 is omitted; a diagnostic here is its
severity and message. -/
structure Diagnostic where
  severity : Severity
  message : String
deriving DecidableEq

/-- Modelled from the spec (§4.1): the ordered rule table mapping a
normalized style name to a BlockKind; the first matching rule wins. The
concrete vocabulary is a policy choice (§9), fixed here to one
representative table. -/
def styleRules : List (String × BlockKind) :=
  [("heading", BlockKind.heading),
   ("dialogue", BlockKind.dialogue),
   ("choice", BlockKind.choice),
   ("stage direction", BlockKind.stageDirection),
   ("narration", BlockKind.narration)]

/-- Leading and trailing whitespace removal on a character list. -/
def trimChars (l : List Char) : List Char :=
  ((l.dropWhile Char.isWhitespace).reverse.dropWhile Char.isWhitespace).reverse

/-- Style-name normalization (§4.1 tie-break): case-insensitive, ignoring
leading and trailing whitespace. -/
def normalizeStyle (s : String) : String :=
  String.mk ((trimChars s.data).map Char.toLower)

/-- First-match lookup in the ordered rule table (§4.1). -/
def lookupRule : List (String × BlockKind) → String → Option BlockKind
  | [], _ => none
  | (pat, k) :: rest, s => if s = pat then some k else lookupRule rest s

/-- Modelled from the spec (§4.1): the Style Classifier. An empty-text Block
is classified Unknown with no diagnostics (it is dropped later); otherwise
the first matching style rule wins, and an unmatched style falls back to
Narration with a warning. -/
def classifyBlock (b : Block) : BlockKind × List Diagnostic :=
  if blockText b = "" then (BlockKind.unknown, [])
  else
    match lookupRule styleRules (normalizeStyle b.styleName) with
    | some k => (k, [])
    | none =>
      (BlockKind.narration,
       [⟨Severity.warning,
         "unrecognized style " ++ b.styleName ++ ", defaulting to narration"⟩])

/-- Kept-block predicate: Unknown blocks do not reach the Aggregator. -/
def keepKind (p : BlockKind × Block) : Bool :=
  decide (p.1 ≠ BlockKind.unknown)

/-- Classification pass over the whole Document: each Block paired with its
kind, with Unknown (empty-text) Blocks dropped before aggregation (§4.1). -/
def classifyDoc (doc : Document) : List (BlockKind × Block) :=
  (doc.map (fun b => ((classifyBlock b).1, b))).filter keepKind

/-- Diagnostics produced by the classification pass, in document order. -/
def classifyDiags (doc : Document) : List Diagnostic :=
  (doc.map (fun b => (classifyBlock b).2)).flatten

/-- Escape of one character (§4.3): the target syntax's reserved characters
(quote, backslash, the two braces) are preceded by a backslash. -/
def escapeChar (c : Char) : String :=
  if c = '"' ∨ c = '\\' ∨ c = '\x7b' ∨ c = '\x7d' then String.mk ['\\', c]
  else String.mk [c]

/-- Escape of a whole text fragment (§4.3). -/
def escapeText (s : String) : String :=
  String.join (s.data.map escapeChar)

/-- Opening inline tag, e.g. `openTag "b"` for bold (§4.3). -/
def openTag (t : String) : String :=
  String.mk ('\x7b' :: t.data ++ ['\x7d'])

/-- Closing inline tag, e.g. `closeTag "b"` for bold (§4.3). -/
def closeTag (t : String) : String :=
  String.mk ('\x7b' :: '/' :: t.data ++ ['\x7d'])

/-- Wrap a fragment in the tag pair named `t` (§4.3). -/
def wrapTag (t s : String) : String :=
  openTag t ++ s ++ closeTag t

/-- Innermost part of a translated Run: escaped text wrapped by the
strikethrough tag, then the underline tag, when those flags are set. -/
def innerWrap (r : Run) : String :=
  let t0 := escapeText r.text
  let t1 := if r.strikethrough then wrapTag "s" t0 else t0
  if r.underline then wrapTag "u" t1 else t1

/-- Modelled from the spec (§4.3): the Formatting Translator. An empty-text
Run yields an empty fragment with no tags; otherwise the nesting order is
fixed — bold outermost, then italic, then underline, then strikethrough —
regardless of the order flags were set. -/
def translateRun (r : Run) : String :=
  if r.text = "" then ""
  else
    let t2 := if r.italic then wrapTag "i" (innerWrap r) else innerWrap r
    if r.bold then wrapTag "b" t2 else t2

/-- Modelled from the spec (§4.2): split a dialogue Block's text at the
first colon into an optional speaker name and the spoken text. -/
def splitSpeaker (t : String) : Option String × String :=
  let pre := t.data.takeWhile (fun c => c != ':')
  if pre.length = t.data.length then (none, t)
  else
    let sp := (String.mk pre).trim
    let rest := (String.mk (t.data.drop (pre.length + 1))).trim
    (if sp = "" then none else some sp, rest)

/-- Modelled from the spec (§3, §4.4): an item of an aggregated section —
either one plain statement (keeping its kind and runs) or a menu holding
the choice texts, targets not yet resolved. -/
inductive Item
  | stmt (kind : BlockKind) (runs : List Run)
  | menu (choices : List (List Run))
deriving DecidableEq

/-- Modelled from the spec (§4.4): an aggregated section before label
assignment — the heading text plus the items under it. -/
structure RawSection where
  heading : String
  items : List Item
deriving DecidableEq

/-- Heading text of the implicit section created lazily when content
precedes any Heading (§4.4). -/
def startHeadingText : String := "start"

/-- Diagnostic recorded when a single-choice menu is demoted (§4.4). -/
def singleChoiceDiag : Diagnostic :=
  ⟨Severity.warning, "menu with a single choice demoted to narration"⟩

/-- Close the pending menu run into the current item list (§4.4): two or
more pending choices become one menu; exactly one is demoted to a plain
narration statement with a warning; none is a no-op. Item lists are kept
reversed while aggregating. -/
def flushMenuInto (pending : List (List Run)) (items : List Item)
    (diags : List Diagnostic) : List Item × List Diagnostic :=
  match pending with
  | [] => (items, diags)
  | [c] => (Item.stmt BlockKind.narration c :: items, diags ++ [singleChoiceDiag])
  | cs => (Item.menu cs.reverse :: items, diags)

/-- Finish the section being built (items were accumulated reversed). -/
def closeSection (h : String) (items : List Item) : RawSection :=
  ⟨h, items.reverse⟩

/-- Main loop of the Block Aggregator (§4.4): single left-to-right pass with
the current section, the pending run of consecutive choices, and the
diagnostics so far. -/
def aggGo : List (BlockKind × Block) → String × List Item → List (List Run) →
    List Diagnostic → List RawSection × List Diagnostic
  | [], (h, items), pending, diags =>
    let (items2, diags2) := flushMenuInto pending items diags
    ([closeSection h items2], diags2)
  | (BlockKind.heading, b) :: rest, (h, items), pending, diags =>
    let (items2, diags2) := flushMenuInto pending items diags
    let (secs, diags3) := aggGo rest (blockText b, []) [] diags2
    (closeSection h items2 :: secs, diags3)
  | (BlockKind.choice, b) :: rest, cur, pending, diags =>
    aggGo rest cur (b.runs :: pending) diags
  | (k, b) :: rest, (h, items), pending, diags =>
    let (items2, diags2) := flushMenuInto pending items diags
    aggGo rest (h, Item.stmt k b.runs :: items2) [] diags2

/-- Modelled from the spec (§4.4): the Block Aggregator. A leading Heading
opens its own section; any other first content Block opens the implicit
start section. -/
def aggregate : List (BlockKind × Block) → List RawSection × List Diagnostic
  | [] => ([], [])
  | (BlockKind.heading, b) :: rest => aggGo rest (blockText b, []) [] []
  | (k, b) :: rest => aggGo ((k, b) :: rest) (startHeadingText, []) [] []

/-- Lowercased slug words of a character stream: maximal alphanumeric runs,
lowercased; non-alphanumeric runs separate words (§4.5). -/
def slugWords : List Char → List Char → List String
  | [], acc => if acc = [] then [] else [String.mk acc.reverse]
  | c :: cs, acc =>
    if c.isAlphanum then slugWords cs (c.toLower :: acc)
    else if acc = [] then slugWords cs []
    else String.mk acc.reverse :: slugWords cs []

/-- Modelled from the spec (§4.5): slugification of a heading — lowercased,
with non-alphanumeric runs collapsed to a single separator. -/
def slugify (s : String) : String :=
  String.intercalate "_" (slugWords s.data [])

/-- Decimal rendering of a natural number, built on `Nat.digits` so its
injectivity is available to the uniqueness proofs. -/
def natRepr (n : Nat) : String :=
  if n = 0 then String.mk ['0']
  else String.mk (((Nat.digits 10 n).map Nat.digitChar).reverse)

/-- Candidate label obtained by appending the numeric suffix `n` (§4.5). -/
def mkCandidate (base : String) (n : Nat) : String :=
  base ++ "_" ++ natRepr n

/-- A fresh suffixed candidate always exists: the suffixes produce pairwise
distinct strings, and `used` is finite. -/
def exists_fresh (used : List String) (base : String) :
    ∃ n, mkCandidate base (n + 1) ∉ used := by
  have hdc : ∀ d, d < 10 → ∀ e, e < 10 →
      Nat.digitChar d = Nat.digitChar e → d = e := by decide
  have hmapinj : ∀ l1 l2 : List Nat, (∀ x ∈ l1, x < 10) → (∀ x ∈ l2, x < 10) →
      l1.map Nat.digitChar = l2.map Nat.digitChar → l1 = l2 := by
    intro l1
    induction l1 with
    | nil => intro l2 _ _ h; cases l2 <;> simp_all
    | cons a t ih =>
      intro l2 h1 h2 h
      cases l2 with
      | nil => simp_all
      | cons b t2 =>
        simp only [List.map_cons, List.cons.injEq] at h
        have ha := hdc a (h1 a (by simp)) b (h2 b (by simp)) h.1
        have ht := ih t2 (fun x hx => h1 x (by simp [hx]))
          (fun x hx => h2 x (by simp [hx])) h.2
        rw [ha, ht]
  have hrepr : ∀ a b : Nat, (natRepr (a + 1)).data = (natRepr (b + 1)).data → a = b := by
    intro a b h
    simp only [natRepr] at h
    rw [if_neg (Nat.succ_ne_zero a), if_neg (Nat.succ_ne_zero b)] at h
    have h2 : (((Nat.digits 10 (a + 1)).map Nat.digitChar).reverse) =
        (((Nat.digits 10 (b + 1)).map Nat.digitChar).reverse) := h
    have hmap := List.reverse_injective h2
    have hdig := hmapinj _ _
      (fun x hx => Nat.digits_lt_base (by norm_num) hx)
      (fun x hx => Nat.digits_lt_base (by norm_num) hx)
      hmap
    have := Nat.digits_inj_iff.mp hdig
    omega
  have hcand : ∀ a b : Nat, mkCandidate base (a + 1) = mkCandidate base (b + 1) → a = b := by
    intro a b h
    have hd : base.data ++ ("_".data ++ (natRepr (a + 1)).data) =
        base.data ++ ("_".data ++ (natRepr (b + 1)).data) := by
      have := congrArg String.data h
      simpa [mkCandidate, List.append_assoc] using this
    exact hrepr a b (List.append_cancel_left (List.append_cancel_left hd))
  by_contra hc
  push_neg at hc
  have hinj : Function.Injective (fun n => mkCandidate base (n + 1)) := by
    intro a b h
    exact hcand a b h
  have hnd : ((List.range (used.length + 1)).map
      (fun n => mkCandidate base (n + 1))).Nodup :=
    (List.nodup_range _).map hinj
  have hsub : ((List.range (used.length + 1)).map
      (fun n => mkCandidate base (n + 1))) ⊆ used := by
    intro x hx
    rcases List.mem_map.mp hx with ⟨n, _, rfl⟩
    exact hc n
  have hle := (List.subperm_of_subset hnd hsub).length_le
  simp at hle

/-- Minimal suffix (starting at 1) making a fresh candidate label (§4.5). -/
def freshSuffix (used : List String) (base : String) : Nat :=
  Nat.find (exists_fresh used base)

/-- Modelled from the spec (§4.5): choose the final Label for a section —
the slug itself when non-empty and unused, otherwise the first suffixed
candidate not colliding with an already assigned label. -/
def labelFresh (used : List String) (base : String) : String :=
  if base ≠ "" ∧ base ∉ used then base
  else mkCandidate base (freshSuffix used base + 1)

/-- Modelled from the spec (§3, §4.5): a section after label assignment. -/
structure LSection where
  label : String
  items : List Item
deriving DecidableEq

/-- Modelled from the spec (§4.5): the label-assignment pass of the
Reference Resolver — the set of labels already used is threaded explicitly
through the fold, and a warning is recorded whenever the slug had to be
suffixed (collision or empty slug). -/
def assignLabels : List String → List RawSection → List LSection × List Diagnostic
  | _, [] => ([], [])
  | used, sec :: rest =>
    let l := labelFresh used (slugify sec.heading)
    let d : List Diagnostic :=
      if l = slugify sec.heading then []
      else [⟨Severity.warning, "duplicate or empty label slug, using " ++ l⟩]
    (⟨l, sec.items⟩ :: (assignLabels (l :: used) rest).1,
     d ++ (assignLabels (l :: used) rest).2)

/-- The synthesized terminal label that ends script execution (§4.5). -/
def terminalLabel : String := "end_of_script"

/-- Modelled from the spec (§3, §4.5): a fully resolved menu choice — its
text runs and the Label it jumps to. -/
structure RChoice where
  text : List Run
  target : String
deriving DecidableEq

/-- A section item after jump-target resolution. -/
inductive RItem
  | stmt (kind : BlockKind) (runs : List Run)
  | menu (choices : List RChoice)
deriving DecidableEq

/-- A fully resolved section: its unique Label and resolved items. -/
structure RSection where
  label : String
  items : List RItem
deriving DecidableEq

/-- Resolve one item against the jump target `tgt` of its section (§4.5):
every choice of a menu in this section jumps to `tgt`. -/
def resolveItem (tgt : String) : Item → RItem
  | Item.stmt k runs => RItem.stmt k runs
  | Item.menu cs => RItem.menu (cs.map (fun c => ⟨c, tgt⟩))

/-- Jump target for menus of the current section (§4.5): the Label of the
nearest following section, or the synthesized terminal label when none
follows. -/
def nextTarget : List LSection → String
  | [] => terminalLabel
  | s :: _ => s.label

/-- Modelled from the spec (§4.5): the target-resolution pass of the
Reference Resolver. -/
def resolveTargets : List LSection → List RSection
  | [] => []
  | s :: rest =>
    ⟨s.label, s.items.map (resolveItem (nextTarget rest))⟩ :: resolveTargets rest

/-- Indentation unit of the emitted script. -/
def indentUnit : String := "    "

/-- Plain (unformatted) text of a run sequence. -/
def plainText (runs : List Run) : String :=
  String.join (runs.map Run.text)

/-- Rendered text of a run sequence: the Formatting Translator applied per
run, fragments concatenated (§4.3, §4.6). -/
def renderRuns (runs : List Run) : String :=
  String.join (runs.map translateRun)

/-- Modelled from the spec (§4.6): one emitted statement line. Dialogue is
split into speaker and spoken text; narration is a quoted line; a stage
direction becomes a comment line. -/
def emitStmtLine (k : BlockKind) (runs : List Run) : String :=
  match k with
  | BlockKind.dialogue =>
    match splitSpeaker (plainText runs) with
    | (some sp, spoken) =>
      indentUnit ++ sp ++ " \"" ++ escapeText spoken ++ "\"\n"
    | (none, _) => indentUnit ++ "\"" ++ renderRuns runs ++ "\"\n"
  | BlockKind.stageDirection => indentUnit ++ "# " ++ plainText runs ++ "\n"
  | _ => indentUnit ++ "\"" ++ renderRuns runs ++ "\"\n"

/-- Modelled from the spec (§4.6): emission of one resolved item. -/
def emitItem : RItem → String
  | RItem.stmt k runs => emitStmtLine k runs
  | RItem.menu cs =>
    indentUnit ++ "menu:\n" ++
    String.join (cs.map (fun c =>
      indentUnit ++ indentUnit ++ "\"" ++ renderRuns c.text ++ "\":\n" ++
      indentUnit ++ indentUnit ++ indentUnit ++ "jump " ++ c.target ++ "\n"))

/-- Modelled from the spec (§4.6): emission of one labeled section. -/
def emitSection (s : RSection) : String :=
  "label " ++ s.label ++ ":\n" ++ String.join (s.items.map emitItem)

/-- Whether any resolved choice jumps to the synthesized terminal label, in
which case the Emitter appends the terminal section (§4.6). -/
def usesTerminal (secs : List RSection) : Bool :=
  secs.any fun s => s.items.any fun it =>
    match it with
    | RItem.menu cs => cs.any (fun c => c.target == terminalLabel)
    | _ => false

/-- Modelled from the spec (§4.6): the Script Emitter — deterministic
serialization of the resolved sections, with the terminal section appended
when the Reference Resolver synthesized the terminal label. -/
def emitScript (secs : List RSection) : String :=
  String.join (secs.map emitSection) ++
  (if usesTerminal secs then
    "label " ++ terminalLabel ++ ":\n" ++ indentUnit ++ "return\n"
  else "")

/-- Modelled from the spec (§7): the fatal structural errors. The
unresolved-target case of §7 is unreachable in this model (targets are
total by construction), so the only inhabitant is the empty document. -/
inductive StructuralError
  | emptyDocument
deriving DecidableEq

/-- The resolved sections the engine generates for a Document: classifier,
aggregator, then both Reference Resolver passes. -/
def resolvedSections (doc : Document) : List RSection :=
  resolveTargets (assignLabels [] (aggregate (classifyDoc doc)).1).1

/-- All diagnostics of one conversion run, in pipeline order. -/
def convertDiags (doc : Document) : List Diagnostic :=
  classifyDiags doc ++ (aggregate (classifyDoc doc)).2 ++
    (assignLabels [] (aggregate (classifyDoc doc)).1).2

/-- Modelled from the spec (§6, §7): the engine entry operation
`convert(document) -> (scriptText, diagnostics)`; an empty Document is the
fatal case and yields a failure carrying no script text. -/
def convert (doc : Document) : Except StructuralError (String × List Diagnostic) :=
  if doc.isEmpty then Except.error StructuralError.emptyDocument
  else Except.ok (emitScript (resolvedSections doc), convertDiags doc)

/-- Two runs of the engine on the same Document (§8 idempotence check). -/
def convertTwice (doc : Document) :
    Except StructuralError (String × List Diagnostic) ×
    Except StructuralError (String × List Diagnostic) :=
  (convert doc, convert doc)

/-- Concrete unformatted run used by the jump-target witness document. -/
def wRunA : Run := ⟨"A", false, false, false, false⟩

/-- Concrete run for the first choice of the witness document. -/
def wRunX : Run := ⟨"x", false, false, false, false⟩

/-- Concrete run for the second choice of the witness document. -/
def wRunY : Run := ⟨"y", false, false, false, false⟩

/-- Concrete witness document: one heading followed by two choices. -/
def wDoc : Document :=
  [⟨"heading", [wRunA]⟩, ⟨"choice", [wRunX]⟩, ⟨"choice", [wRunY]⟩]

/-- Resolved choices of the witness document's menu: both jump to the
synthesized terminal label, as no section follows. -/
def wChoices : List RChoice :=
  [⟨[wRunX], terminalLabel⟩, ⟨[wRunY], terminalLabel⟩]

/-- The witness document's single resolved menu item. -/
def wItem : RItem := RItem.menu wChoices

/-- The witness document's single resolved section. -/
def wSec : RSection := ⟨"a", [wItem]⟩

/-- One concrete resolved choice of the witness menu. -/
def wChoice : RChoice := ⟨[wRunX], terminalLabel⟩

/-- C1: the engine entry is the single operation `convert`, a pure function
from a Document to the pair (script text, diagnostics): on every non-empty
Document it returns exactly that pair, and being a function of the Document
alone it reads no global state and has no side effect besides the returned
diagnostics list. -/
theorem convert_returns_pair_of_nonempty (doc : Document) (h : doc ≠ []) :
    ∃ s diags, convert doc = Except.ok (s, diags) := by
  cases doc with
  | nil => exact absurd rfl h
  | cons b rest => exact ⟨_, _, rfl⟩

/-- Witness for C1 at a concrete one-block Document. -/
theorem convert_returns_pair_witness :
    ([⟨"heading", [⟨"A", false, false, false, false⟩]⟩] : Document) ≠ [] ∧
    ∃ s diags,
      convert [⟨"heading", [⟨"A", false, false, false, false⟩]⟩] = Except.ok (s, diags) :=
  ⟨by decide,
   convert_returns_pair_of_nonempty
     [⟨"heading", [⟨"A", false, false, false, false⟩]⟩] (by decide)⟩

/-- C2: when conversion fails the failure result carries no script text —
a failing `convert` never also yields an `ok` pair, so no partial output is
produced on failure. -/
theorem convert_failure_no_partial_output (doc : Document) (e : StructuralError)
    (h : convert doc = Except.error e) :
    ∀ s diags, convert doc ≠ Except.ok (s, diags) := by
  intro s diags hc
  rw [h] at hc
  exact Except.noConfusion hc

/-- Witness for C2 at the empty Document, the fatal case. -/
theorem convert_failure_no_partial_witness :
    convert [] = Except.error StructuralError.emptyDocument ∧
    ∀ s diags, convert ([] : Document) ≠ Except.ok (s, diags) :=
  ⟨rfl, convert_failure_no_partial_output [] StructuralError.emptyDocument rfl⟩

/-- C3: at the CLI boundary, every failure raised by `convert` results in a
printed error message built from the failure's cause and exit status 1. -/
theorem cli_failure_message_and_exit (p i o : String) (isFile : String → Bool)
    (cvt : String → String → Except String Unit) (e : String)
    (hf : isFile i = true) (he : cvt i o = Except.error e) :
    mainCLI [p, i, o] isFile cvt =
      ⟨["Conversion failed: " ++ e], 1, [(i, o)]⟩ := by
  simp [mainCLI, hf, he]

/-- Witness for C3 at a concrete failing conversion. -/
theorem cli_failure_message_witness :
    ((fun _ : String => true) "in.docx" = true) ∧
    ((fun _ _ : String => (Except.error "bad" : Except String Unit)) "in.docx" "out.rpy"
      = Except.error "bad") ∧
    mainCLI ["prog", "in.docx", "out.rpy"] (fun _ => true)
        (fun _ _ => Except.error "bad") =
      ⟨["Conversion failed: " ++ "bad"], 1, [("in.docx", "out.rpy")]⟩ :=
  ⟨rfl, rfl,
   cli_failure_message_and_exit "prog" "in.docx" "out.rpy" (fun _ => true)
     (fun _ _ => Except.error "bad") "bad" rfl rfl⟩

/-- C4: conversion is deterministic — running it twice on the same Document
yields byte-identical script text and identical diagnostics; the engine is
a pure function of the Document, with no counter surviving across calls
(the resolver's used-label state is created afresh inside each call). -/
theorem convert_deterministic (doc : Document) :
    (convertTwice doc).1 = (convertTwice doc).2 := rfl

/-- C10: with exactly three arguments and an existing input file, `main`
calls `convert` exactly once, on the input and output paths; when `convert`
returns normally it prints the success message naming the output path and
the process ends with status 0. -/
theorem cli_success_path (p i o : String) (isFile : String → Bool)
    (cvt : String → String → Except String Unit) (hf : isFile i = true) :
    (mainCLI [p, i, o] isFile cvt).convertCalls = [(i, o)] ∧
    (cvt i o = Except.ok () → mainCLI [p, i, o] isFile cvt =
      ⟨["Conversion successful: " ++ o], 0, [(i, o)]⟩) := by
  constructor
  · cases hc : cvt i o with
    | ok u => cases u; simp [mainCLI, hf, hc]
    | error e => simp [mainCLI, hf, hc]
  · intro hc
    simp [mainCLI, hf, hc]

/-- Witness for C10 at a concrete successful invocation. -/
theorem cli_success_path_witness :
    ((fun _ : String => true) "in.docx" = true) ∧
    (mainCLI ["prog", "in.docx", "out.rpy"] (fun _ => true)
        (fun _ _ => Except.ok ())).convertCalls = [("in.docx", "out.rpy")] ∧
    mainCLI ["prog", "in.docx", "out.rpy"] (fun _ => true) (fun _ _ => Except.ok ()) =
      ⟨["Conversion successful: " ++ "out.rpy"], 0, [("in.docx", "out.rpy")]⟩ :=
  ⟨rfl,
   (cli_success_path "prog" "in.docx" "out.rpy" (fun _ => true)
     (fun _ _ => Except.ok ()) rfl).1,
   (cli_success_path "prog" "in.docx" "out.rpy" (fun _ => true)
     (fun _ _ => Except.ok ()) rfl).2 rfl⟩

/-- C9: when the argument count is not three, or the input path is not an
existing file, `main` prints a diagnostic, exits with status 1, and never
calls `convert` — so the output file is never written in these cases. -/
theorem cli_guard_blocks_convert (argv : List String) (isFile : String → Bool)
    (cvt : String → String → Except String Unit)
    (h : argv.length ≠ 3 ∨ ∃ p i o, argv = [p, i, o] ∧ isFile i = false) :
    (mainCLI argv isFile cvt).convertCalls = [] ∧
    (mainCLI argv isFile cvt).exitCode = 1 ∧
    (mainCLI argv isFile cvt).printed ≠ [] := by
  rcases h with hlen | ⟨p, i, o, rfl, hfile⟩
  · match argv, hlen with
    | [], _ => simp [mainCLI]
    | [a], _ => simp [mainCLI]
    | [a, b], _ => simp [mainCLI]
    | [a, b, c], hlen => exact absurd rfl hlen
    | a :: b :: c :: d :: rest, _ => simp [mainCLI]
  · simp [mainCLI, hfile]

/-- Witness for C9 at a concrete invocation with a missing input file. -/
theorem cli_guard_blocks_convert_witness :
    (["prog", "in.docx", "out.rpy"] = ["prog", "in.docx", "out.rpy"] ∧
      (fun _ : String => false) "in.docx" = false) ∧
    (mainCLI ["prog", "in.docx", "out.rpy"] (fun _ => false)
        (fun _ _ => Except.ok ())).convertCalls = [] ∧
    (mainCLI ["prog", "in.docx", "out.rpy"] (fun _ => false)
        (fun _ _ => Except.ok ())).exitCode = 1 ∧
    (mainCLI ["prog", "in.docx", "out.rpy"] (fun _ => false)
        (fun _ _ => Except.ok ())).printed ≠ [] :=
  ⟨⟨rfl, rfl⟩,
   cli_guard_blocks_convert ["prog", "in.docx", "out.rpy"] (fun _ => false)
     (fun _ _ => Except.ok ())
     (Or.inr ⟨"prog", "in.docx", "out.rpy", rfl, rfl⟩)⟩

/-- The label chosen by the resolver never collides with an already used
label (§4.5). -/
theorem labelFresh_not_mem (used : List String) (base : String) :
    labelFresh used base ∉ used := by
  simp only [labelFresh]
  split_ifs with h
  · exact h.2
  · simp only [freshSuffix]
    exact Nat.find_spec (exists_fresh used base)

/-- Label assignment produces pairwise distinct labels, all avoiding the
initially used set. -/
theorem assignLabels_labels_nodup : ∀ (secs : List RawSection) (used : List String),
    ((assignLabels used secs).1.map LSection.label).Nodup ∧
    ∀ l ∈ (assignLabels used secs).1.map LSection.label, l ∉ used := by
  intro secs
  induction secs with
  | nil => intro used; simp [assignLabels]
  | cons sec rest ih =>
    intro used
    have hstep :
        (assignLabels used (sec :: rest)).1 =
        ⟨labelFresh used (slugify sec.heading), sec.items⟩ ::
          (assignLabels (labelFresh used (slugify sec.heading) :: used) rest).1 := by
      simp [assignLabels]
    rw [hstep]
    simp only [List.map_cons, List.nodup_cons, List.mem_cons]
    refine ⟨⟨?_, (ih _).1⟩, ?_⟩
    · intro hmem
      exact (ih (labelFresh used (slugify sec.heading) :: used)).2 _ hmem
        (List.mem_cons_self _ _)
    · intro l hl
      rcases hl with rfl | hl
      · exact labelFresh_not_mem used (slugify sec.heading)
      · intro hu
        exact (ih (labelFresh used (slugify sec.heading) :: used)).2 _ hl
          (List.mem_cons_of_mem _ hu)

/-- Target resolution keeps each section's label unchanged. -/
theorem resolveTargets_labels (secs : List LSection) :
    (resolveTargets secs).map RSection.label = secs.map LSection.label := by
  induction secs with
  | nil => rfl
  | cons s rest ih => simp [resolveTargets, ih]

/-- C5: label uniqueness — in the generated script no two LabeledSections
share a Label; the resolver's deterministic suffixing makes the assigned
labels pairwise distinct document-wide. -/
theorem generated_labels_unique (doc : Document) :
    ((resolvedSections doc).map RSection.label).Nodup := by
  simp only [resolvedSections]
  rw [resolveTargets_labels]
  exact (assignLabels_labels_nodup _ []).1

/-- Every target assigned by the resolution pass is either the synthesized
terminal label or the label of one of the sections being resolved. -/
theorem resolveTargets_targets (secs : List LSection) :
    ∀ s ∈ resolveTargets secs, ∀ it ∈ s.items, ∀ cs, it = RItem.menu cs →
      ∀ c ∈ cs, c.target = terminalLabel ∨ c.target ∈ secs.map LSection.label := by
  induction secs with
  | nil => intro s hs; simp [resolveTargets] at hs
  | cons hd tl ih =>
    intro s hs it hit cs hcs c hc
    simp only [resolveTargets, List.mem_cons] at hs
    rcases hs with rfl | hs
    · simp only [List.mem_map] at hit
      rcases hit with ⟨it0, _, rfl⟩
      cases it0 with
      | stmt k runs => simp [resolveItem] at hcs
      | menu cs0 =>
        simp only [resolveItem, RItem.menu.injEq] at hcs
        subst hcs
        rcases List.mem_map.mp hc with ⟨c0, _, rfl⟩
        cases tl with
        | nil => exact Or.inl rfl
        | cons s2 t2 =>
          right
          simp [nextTarget]
    · refine (ih s hs it hit cs hcs c hc).imp id ?_
      intro h
      simp only [List.map_cons, List.mem_cons]
      exact Or.inr h

/-- C6: jump-target validity — every choice of every menu in the generated
script jumps to the Label of some generated LabeledSection or to the
synthesized terminal label; no target is left undefined. -/
theorem menu_targets_valid (doc : Document) :
    ∀ s ∈ resolvedSections doc, ∀ it ∈ s.items, ∀ cs, it = RItem.menu cs →
      ∀ c ∈ cs, c.target = terminalLabel ∨
        c.target ∈ (resolvedSections doc).map RSection.label := by
  intro s hs it hit cs hcs c hc
  simp only [resolvedSections] at hs ⊢
  rw [resolveTargets_labels]
  exact resolveTargets_targets _ s hs it hit cs hcs c hc

/-- Witness for C6 on the concrete witness document: its menu's first
choice jumps to the synthesized terminal label. -/
theorem menu_targets_valid_witness :
    wSec ∈ resolvedSections wDoc ∧ wItem ∈ wSec.items ∧ wItem = RItem.menu wChoices ∧
    wChoice ∈ wChoices ∧
    (wChoice.target = terminalLabel ∨
      wChoice.target ∈ (resolvedSections wDoc).map RSection.label) :=
  ⟨by decide, by decide, rfl, by decide,
   menu_targets_valid wDoc wSec (by decide) wItem (by decide) wChoices rfl wChoice
     (by decide)⟩

/-- C7: for a Run flagged both bold and italic, the translator emits the
bold tag pair strictly outside the italic tag pair, whatever the remaining
flags; flags form an unordered set in the model, so no source order can
influence this. -/
theorem bold_outside_italic (r : Run) (hb : r.bold = true) (hi : r.italic = true)
    (ht : r.text ≠ "") :
    ∃ inner, translateRun r = wrapTag "b" (wrapTag "i" inner) := by
  refine ⟨innerWrap r, ?_⟩
  simp [translateRun, ht, hb, hi]

/-- Witness for C7 at a concrete bold-italic run. -/
theorem bold_outside_italic_witness :
    (⟨"x", true, true, false, false⟩ : Run).bold = true ∧
    (⟨"x", true, true, false, false⟩ : Run).italic = true ∧
    (⟨"x", true, true, false, false⟩ : Run).text ≠ "" ∧
    ∃ inner,
      translateRun ⟨"x", true, true, false, false⟩ = wrapTag "b" (wrapTag "i" inner) :=
  ⟨rfl, rfl, by decide, bold_outside_italic ⟨"x", true, true, false, false⟩ rfl rfl
    (by decide)⟩

/-- An empty-text Block is classified Unknown with no diagnostics. -/
theorem classifyBlock_empty (b : Block) (hb : blockText b = "") :
    classifyBlock b = (BlockKind.unknown, []) := by
  simp [classifyBlock, hb]

/-- The fixed style rule table never classifies anything as Unknown. -/
theorem lookupRule_not_unknown (s : String) (k : BlockKind)
    (h : lookupRule styleRules s = some k) : k ≠ BlockKind.unknown := by
  simp only [styleRules, lookupRule] at h
  split_ifs at h <;> cases h <;> decide

/-- A Block is classified Unknown exactly when its text is empty. -/
theorem classifyBlock_unknown_iff (b : Block) :
    (classifyBlock b).1 = BlockKind.unknown ↔ blockText b = "" := by
  constructor
  · intro h
    by_contra hne
    simp only [classifyBlock, if_neg hne] at h
    cases hl : lookupRule styleRules (normalizeStyle b.styleName) with
    | none => rw [hl] at h; simp at h
    | some k => rw [hl] at h; simp at h; exact lookupRule_not_unknown _ k hl h
  · intro h
    simp [classifyBlock_empty b h]

/-- Every Block with non-empty text reaches the Aggregator, paired with its
assigned kind. -/
theorem classifyDoc_keeps (doc : Document) (b : Block) (hb : blockText b ≠ "")
    (hmem : b ∈ doc) : ((classifyBlock b).1, b) ∈ classifyDoc doc := by
  apply List.mem_filter.mpr
  refine ⟨List.mem_map.mpr ⟨b, hmem, rfl⟩, ?_⟩
  simp only [keepKind, decide_eq_true_eq]
  intro hu
  exact hb ((classifyBlock_unknown_iff b).mp hu)

/-- Inserting an empty-text Block changes the classified sequence reaching
the Aggregator not at all. -/
theorem classifyDoc_insert (pre post : List Block) (b : Block)
    (hb : blockText b = "") :
    classifyDoc (pre ++ b :: post) = classifyDoc (pre ++ post) := by
  simp [classifyDoc, classifyBlock_empty b hb, keepKind]

/-- Inserting an empty-text Block contributes no diagnostics. -/
theorem classifyDiags_insert (pre post : List Block) (b : Block)
    (hb : blockText b = "") :
    classifyDiags (pre ++ b :: post) = classifyDiags (pre ++ post) := by
  simp [classifyDiags, classifyBlock_empty b hb]

/-- Inserting an empty-text Block anywhere leaves the conversion result —
script text and diagnostics — unchanged. -/
theorem convert_skips_empty_block (pre post : List Block) (b : Block)
    (hb : blockText b = "") (hne : pre ++ post ≠ []) :
    convert (pre ++ b :: post) = convert (pre ++ post) := by
  have h1 : (pre ++ b :: post).isEmpty = false := by
    cases pre <;> simp
  have h2 : (pre ++ post).isEmpty = false := by
    cases hp : pre ++ post with
    | nil => exact absurd hp hne
    | cons x xs => simp
  simp only [convert, h1, h2, Bool.false_eq_true, if_false, resolvedSections,
    convertDiags, classifyDoc_insert pre post b hb, classifyDiags_insert pre post b hb]

/-- C8: an empty-text Block is classified Unknown (with no diagnostics) and
is the only kind of Block that is dropped: classification yields Unknown
exactly on empty text, every non-empty Block reaches the Aggregator, and
inserting an empty-text Block anywhere in a Document leaves the conversion
output — statements and diagnostics — unchanged. -/
theorem empty_block_dropped :
    (∀ b : Block, blockText b = "" → classifyBlock b = (BlockKind.unknown, [])) ∧
    (∀ b : Block, (classifyBlock b).1 = BlockKind.unknown ↔ blockText b = "") ∧
    (∀ (doc : Document) (b : Block), blockText b ≠ "" → b ∈ doc →
      ((classifyBlock b).1, b) ∈ classifyDoc doc) ∧
    (∀ (pre post : List Block) (b : Block), blockText b = "" → pre ++ post ≠ [] →
      convert (pre ++ b :: post) = convert (pre ++ post)) :=
  ⟨classifyBlock_empty, classifyBlock_unknown_iff, classifyDoc_keeps,
   convert_skips_empty_block⟩

/-- Witness for C8: appending a concrete empty Block to a concrete one-block
Document changes nothing. -/
theorem empty_block_dropped_witness :
    blockText ⟨"narration", []⟩ = "" ∧
    ([⟨"heading", [wRunA]⟩] : List Block) ++ [] ≠ [] ∧
    convert ([⟨"heading", [wRunA]⟩] ++ (⟨"narration", []⟩ : Block) :: []) =
      convert ([⟨"heading", [wRunA]⟩] ++ []) :=
  ⟨by decide, by decide,
   empty_block_dropped.2.2.2 [⟨"heading", [wRunA]⟩] [] ⟨"narration", []⟩
     (by decide) (by decide)⟩

end RenpyConvert
